import Mathlib

/-!
Shallow embedding of `cornell_scraper.py` and `extract_course_codes_from_list.py`
(Cornell course scraper), together with proofs checking the repository's
specification claims against the code.

Python strings are embedded as Lean `String` (a wrapper around `List Char`);
all operations used by the source (slicing, strip, startswith, int(),
f-string `%02d` formatting, `str.join`, regex fragments) are modelled
explicitly below, each faithful to CPython semantics on the inputs the
program manipulates (ASCII text).
-/

/-! ## Characters and strings -/

/-- ASCII decimal digit, as matched by the regex class `\d` on ASCII text. -/
def isDigitCh (c : Char) : Bool := 48 ≤ c.toNat && c.toNat ≤ 57

/-- ASCII uppercase letter `A`-`Z`, the regex class `[A-Z]` without IGNORECASE. -/
def isUpperCh (c : Char) : Bool := 65 ≤ c.toNat && c.toNat ≤ 90

/-- ASCII letter, the regex class `[A-Z]` under `re.IGNORECASE` (ASCII range). -/
def isLetterCh (c : Char) : Bool :=
  (65 ≤ c.toNat && c.toNat ≤ 90) || (97 ≤ c.toNat && c.toNat ≤ 122)

/-- Whitespace as matched by Python's `\s` and `str.strip()` (ASCII range:
space, tab, newline, vertical tab, form feed, carriage return). -/
def isPySpace (c : Char) : Bool :=
  c == ' ' || c == '\t' || c == '\n' || c == '\x0b' || c == '\x0c' || c == '\r'

/-- `str.upper()` on one ASCII character. -/
def pyToUpper (c : Char) : Char :=
  if 97 ≤ c.toNat && c.toNat ≤ 122 then Char.ofNat (c.toNat - 32) else c

/-- Build a string from its character list. -/
def mkStr (l : List Char) : String := String.mk l

/-- Python string concatenation `a + b`. -/
def pyCat (a b : String) : String := mkStr (a.data ++ b.data)

/-- Concatenation of a list of strings (`"".join(...)`). -/
def pyConcat : List String → String
  | [] => ""
  | s :: rest => pyCat s (pyConcat rest)

/-- `sep.join(l)` for a nonseparated tail-recursive model of `str.join`. -/
def pyJoin (sep : String) : List String → String
  | [] => ""
  | [s] => s
  | s :: rest => pyCat s (pyCat sep (pyJoin sep rest))

/-- `pattern` is an initial segment of `l` (helper for `str.startswith`). -/
def leadsWith : List Char → List Char → Bool
  | [], _ => true
  | _ :: _, [] => false
  | p :: ps, c :: cs => p == c && leadsWith ps cs

/-- Python `s.startswith(pre)`. -/
def pyStartsWith (s pre : String) : Bool := leadsWith pre.data s.data

/-- Python slicing `s[k:]`. -/
def pyDropStr (s : String) (k : Nat) : String := mkStr (s.data.drop k)

/-- Strip `\s` characters from both ends of a character list. -/
def stripEnds (l : List Char) : List Char :=
  ((l.dropWhile isPySpace).reverse.dropWhile isPySpace).reverse

/-- Python `s.strip()`. -/
def pyStrip (s : String) : String := mkStr (stripEnds s.data)

/-- Split a character list at `\n` characters (used only to state facts about
output text, mirroring how a reader sees lines of the output file). -/
def splitNlAux : List Char → List Char → List String
  | [], acc => [mkStr acc.reverse]
  | c :: cs, acc =>
    if c == '\n' then mkStr acc.reverse :: splitNlAux cs []
    else splitNlAux cs (c :: acc)

/-- The lines of a string, splitting at every newline. -/
def pyLines (s : String) : List String := splitNlAux s.data []

/-! ## Decimal rendering and parsing (Python `int()` and `f"{n:02d}"`) -/

/-- Big-endian decimal digits of `n` (`fuel ≥ n` makes the result exact);
structural in `fuel` so that concrete instances reduce in the kernel. -/
def natDigitsBE : Nat → Nat → List Char
  | 0, _ => []
  | _ + 1, 0 => []
  | fuel + 1, n + 1 =>
    natDigitsBE fuel ((n + 1) / 10) ++ [Nat.digitChar ((n + 1) % 10)]

/-- Decimal rendering of a natural number, as Python's `str`/`%d`. -/
def natDecimal (n : Nat) : String := if n = 0 then "0" else mkStr (natDigitsBE n n)

/-- Zero-pad a rendered number on the left to width 2 (`%02d`, nonnegative case). -/
def padTwo (s : String) : String := mkStr (List.replicate (2 - s.data.length) '0' ++ s.data)

/-- Python `f"{n:02d}"`: minimum width 2, zero fill after the sign.  A negative
number of one digit therefore renders as e.g. `"-1"` (width already 2). -/
def pyFormat02d (n : Int) : String :=
  if n < 0 then pyCat "-" (natDecimal n.natAbs) else padTwo (natDecimal n.natAbs)

/-- Numeric value of one ASCII digit character. -/
def digitVal (c : Char) : Nat := c.toNat - 48

/-- Left-to-right accumulation of a decimal literal; fails at a non-digit. -/
def parseNatAcc (acc : Nat) : List Char → Option Nat
  | [] => some acc
  | c :: cs => if isDigitCh c then parseNatAcc (acc * 10 + digitVal c) cs else none

/-- Character-list worker for `pyInt` below. -/
def pyIntList : List Char → Option Int
  | [] => none
  | c :: cs =>
    if c = '-' then
      match cs with
      | [] => none
      | _ :: _ => (parseNatAcc 0 cs).map (fun n : Nat => -(n : Int))
    else (parseNatAcc 0 (c :: cs)).map (fun n : Nat => (n : Int))

/-- Python `int(s)` restricted to an optional leading `-` followed by decimal
digits — the only shapes the program ever feeds to `int` (semester-code year
suffixes).  Anything else is a `ValueError`, modelled as `none`. -/
def pyInt (s : String) : Option Int := pyIntList s.data

/-! ## Semester arithmetic (`get_current_semester`, `get_previous_semester`,
`get_fallback_semesters`) -/

/-- `CornellCourseScraper.get_current_semester`, with "today" made an explicit
`(year, month, day)` argument (the source reads `datetime.now()`). -/
def get_current_semester (year : Int) (month day : Nat) : String :=
  if (month = 4 ∧ 15 ≤ day) ∨ (5 ≤ month ∧ month ≤ 9) ∨ (month = 10 ∧ day ≤ 14) then
    pyCat "FA" (pyFormat02d (year % 100))
  else if (month = 10 ∧ 15 ≤ day) ∨ (11 ≤ month ∧ month ≤ 12) then
    pyCat "SP" (pyFormat02d ((year + 1) % 100))
  else
    pyCat "SP" (pyFormat02d (year % 100))

/-- A plausible calendar date: month 1-12, day 1-31. -/
def DateValid (month day : Nat) : Prop :=
  1 ≤ month ∧ month ≤ 12 ∧ 1 ≤ day ∧ day ≤ 31

/-- April 15 through October 14, inclusive (the claimed Fall window). -/
def InFallWindow (month day : Nat) : Prop :=
  (month = 4 ∧ 15 ≤ day) ∨ (5 ≤ month ∧ month ≤ 9) ∨ (month = 10 ∧ day ≤ 14)

/-- October 15 through December 31 (the claimed next-year-Spring window). -/
def InNextSpringWindow (month day : Nat) : Prop :=
  (month = 10 ∧ 15 ≤ day) ∨ (11 ≤ month ∧ month ≤ 12)

/-- January 1 through April 14 (the claimed same-year-Spring window). -/
def InSpringWindow (month day : Nat) : Prop :=
  (1 ≤ month ∧ month ≤ 3) ∨ (month = 4 ∧ day ≤ 14)

/-- The claim-C2 contract of semester inference at one date: the three windows
cover the date exactly once, the inferred code is FA-of-current-year on the
Fall window, SP-of-next-year on the late window, SP-of-current-year on the
early window, and the six boundary dates behave as claimed. -/
def SemesterInferenceSpec (year : Int) (month day : Nat) : Prop :=
  (InFallWindow month day ∨ InNextSpringWindow month day ∨ InSpringWindow month day) ∧
  ¬ (InFallWindow month day ∧ InNextSpringWindow month day) ∧
  ¬ (InFallWindow month day ∧ InSpringWindow month day) ∧
  ¬ (InNextSpringWindow month day ∧ InSpringWindow month day) ∧
  (InFallWindow month day →
    get_current_semester year month day = pyCat "FA" (pyFormat02d (year % 100))) ∧
  (InNextSpringWindow month day →
    get_current_semester year month day = pyCat "SP" (pyFormat02d ((year + 1) % 100))) ∧
  (InSpringWindow month day →
    get_current_semester year month day = pyCat "SP" (pyFormat02d (year % 100))) ∧
  get_current_semester year 4 14 = pyCat "SP" (pyFormat02d (year % 100)) ∧
  get_current_semester year 4 15 = pyCat "FA" (pyFormat02d (year % 100)) ∧
  get_current_semester year 10 14 = pyCat "FA" (pyFormat02d (year % 100)) ∧
  get_current_semester year 10 15 = pyCat "SP" (pyFormat02d ((year + 1) % 100)) ∧
  get_current_semester year 1 1 = pyCat "SP" (pyFormat02d (year % 100)) ∧
  get_current_semester year 12 31 = pyCat "SP" (pyFormat02d ((year + 1) % 100))

/-- The `for _ in range(steps_back)` loop body of `get_previous_semester`.
`none` models an uncaught `ValueError` raised by `int(current[2:])`. -/
def prevLoop : Nat → String → Option String
  | 0, cur => some cur
  | k + 1, cur =>
    if pyStartsWith cur "FA" then
      prevLoop k (pyCat "SP" (pyDropStr cur 2))
    else if pyStartsWith cur "SP" then
      match pyInt (pyDropStr cur 2) with
      | some y => prevLoop k (pyCat "FA" (pyFormat02d (y - 1)))
      | none => none
    else
      -- unknown format: the source returns `current` immediately
      some cur

/-- `CornellCourseScraper.get_previous_semester`. -/
def get_previous_semester (semester : String) (steps_back : Nat) : Option String :=
  prevLoop steps_back semester

/-- `CornellCourseScraper.get_fallback_semesters`: previous semesters obtained
with step counts `1 .. num_fallbacks`, each computed from the start code. -/
def get_fallback_semesters (semester : String) (num_fallbacks : Nat) :
    Option (List String) :=
  (List.range num_fallbacks).mapM (fun i => get_previous_semester semester (i + 1))

/-- A well-formed term code: `FA`/`SP` followed by the `%02d` rendering of an
integer year.  Every code the data model allows (`FA25`, `SP00`, ...) has this
shape, as do the codes the step-back operation produces. -/
def mkCode (fall : Bool) (y : Int) : String :=
  pyCat (if fall then "FA" else "SP") (pyFormat02d y)

/-- Linear position of a term code on the semester axis (Spring of year `y`
sits at `2y`, Fall of year `y` at `2y + 1`). -/
def codeOfIdx (k : Int) : String := mkCode (decide (k % 2 = 1)) (k / 2)

/-- The semester-axis position of the code `mkCode fall y`. -/
def idxOf (fall : Bool) (y : Int) : Int := 2 * y + (if fall then 1 else 0)

/-! ## Course code parsing (`parse_course_code`) -/

/-- The anchored regex `re.match(r'([A-Z]+)\s*(\d+)', s, re.IGNORECASE)`:
a maximal run of letters at the very start, optional whitespace, then a run of
digits.  Maximal munch coincides with the regex's greedy backtracking here,
because shortening the letter (resp. space) run puts a letter (resp. space)
where a digit is required. -/
def matchDeptNum (l : List Char) : Option (List Char × List Char) :=
  if l.takeWhile isLetterCh ≠ []
      ∧ ((l.dropWhile isLetterCh).dropWhile isPySpace).takeWhile isDigitCh ≠ [] then
    some (l.takeWhile isLetterCh,
      ((l.dropWhile isLetterCh).dropWhile isPySpace).takeWhile isDigitCh)
  else none

/-- Strip, truncate at the first `:` (re-stripping), per `parse_course_code`. -/
def cleanCourseString (course_string : String) : List Char :=
  let s := stripEnds course_string.data
  if s.contains ':' then stripEnds (s.takeWhile (fun c => c ≠ ':')) else s

/-- `CornellCourseScraper.parse_course_code`; `none` is the raised
`ValueError` ("Could not parse course code"). -/
def parse_course_code (course_string : String) : Option (String × String) :=
  (matchDeptNum (cleanCourseString course_string)).map
    (fun p => (mkStr (p.1.map pyToUpper), mkStr p.2))

/-- Modelled from the spec's words (for comparison with the code): a
letters-then-optional-space-then-digits match found *anywhere* in the
cleaned string, not only at its start. -/
def spec_match_anywhere : List Char → Option (List Char × List Char)
  | [] => none
  | c :: cs =>
    match matchDeptNum (c :: cs) with
    | some r => some r
    | none => spec_match_anywhere cs

/-- A successful anchored parse, described structurally: the cleaned string
begins with a nonempty run of letters, then optional whitespace, then a
nonempty maximal run of digits (the remainder does not begin with a digit);
the result is the uppercased letter run and the digit run. -/
def AnchoredParse (l : List Char) (dept num : String) : Prop :=
  ∃ L W D R : List Char,
    l = L ++ W ++ D ++ R ∧
    L ≠ [] ∧ (∀ c ∈ L, isLetterCh c = true) ∧
    (∀ c ∈ W, isPySpace c = true) ∧
    D ≠ [] ∧ (∀ c ∈ D, isDigitCh c = true) ∧
    (∀ c, R.head? = some c → isDigitCh c = false) ∧
    dept = mkStr (L.map pyToUpper) ∧ num = mkStr D

/-! ## Component B: `extract_unique_courses` -/

/-- A match of the regex `[A-Z]+ \d{4}` anchored at the head of `l`:
one or more uppercase letters, one literal space, exactly four digits.
Returns the matched characters and the remaining input. -/
def matchCourseCodeAt (l : List Char) : Option (List Char × List Char) :=
  let letters := l.takeWhile isUpperCh
  match l.dropWhile isUpperCh with
  | ' ' :: d1 :: d2 :: d3 :: d4 :: rest =>
    if letters ≠ [] ∧ isDigitCh d1 ∧ isDigitCh d2 ∧ isDigitCh d3 ∧ isDigitCh d4 then
      some (letters ++ ' ' :: [d1, d2, d3, d4], rest)
    else none
  | _ => none

/-- `re.findall(r'[A-Z]+ \d{4}', content)`: non-overlapping matches scanning
left to right.  Structural on a fuel bound (`fuel ≥ length` gives the full
scan); after a match the scan resumes right after it. -/
def findallCourseCodes : Nat → List Char → List String
  | 0, _ => []
  | _ + 1, [] => []
  | fuel + 1, c :: cs =>
    match matchCourseCodeAt (c :: cs) with
    | some (m, rest) => mkStr m :: findallCourseCodes fuel rest
    | none => findallCourseCodes fuel cs

/-- All regex matches of `[A-Z]+ \d{4}` in `content`. -/
def foundCourses (content : String) : List String :=
  findallCourseCodes content.data.length content.data

/-- Lexicographic `<` on character lists by code point (Python string order). -/
def lexLt : List Char → List Char → Bool
  | [], [] => false
  | [], _ :: _ => true
  | _ :: _, [] => false
  | a :: as, b :: bs =>
    if a.toNat < b.toNat then true
    else if b.toNat < a.toNat then false
    else lexLt as bs

/-- Python string `<=` (lexicographic by code point). -/
def pyStrLe (a b : String) : Bool := !(lexLt b.data a.data)

/-- The order relation used to state sortedness of Component B's output. -/
def PyLe (a b : String) : Prop := pyStrLe a b = true

instance : DecidableRel PyLe := fun a b => by unfold PyLe; infer_instance

/-- `sorted(list(set(found_courses)))`: deduplicate, then sort ascending. -/
def unique_courses (content : String) : List String :=
  List.insertionSort PyLe (foundCourses content).dedup

/-- The text written to the output file: one course code per line. -/
def unique_courses_output (content : String) : String :=
  pyConcat ((unique_courses content).map (fun c => pyCat c "\n"))

/-! ## HTML documents and BeautifulSoup operations

A parsed page is a forest of nodes: text nodes and elements with a tag, an
optional `id` attribute, a list of classes, and children.  The BeautifulSoup
operations the scraper uses — `find` (first matching descendant in document
order), `find_all`, `extract()` (remove a node from the tree) and
`get_text(strip=True)` (strip each text fragment, drop empties, join) — are
modelled below.  Tree recursions take an explicit fuel argument, structural in
the fuel so that concrete instances reduce in the kernel; every statement uses
one and the same fuel on both sides, and a fuel at least the node count of the
document gives the exact BeautifulSoup behaviour. -/

inductive Node where
  | text : String → Node
  | elem : (tag : String) → (idAttr : Option String) → (classes : List String) →
      (children : List Node) → Node
deriving Repr

/-- Children of a node (text nodes have none). -/
def childrenOf : Node → List Node
  | Node.text _ => []
  | Node.elem _ _ _ cs => cs

/-- Does the node match `find(tag, class_=cls)`? -/
def hasTagClass (tag cls : String) : Node → Bool
  | Node.text _ => false
  | Node.elem t _ classes _ => t == tag && classes.contains cls

/-- Does the node match `find(tag)` (tag only)? -/
def hasTag (tag : String) : Node → Bool
  | Node.text _ => false
  | Node.elem t _ _ _ => t == tag

/-- Does the node match `find('a', id=lambda x: x and x.startswith('dtitle-'))`? -/
def isDtitleAnchor : Node → Bool
  | Node.text _ => false
  | Node.elem t i _ _ =>
    t == "a" && (match i with
      | some s => s != "" && pyStartsWith s "dtitle-"
      | none => false)

/-- `find`: first node of the forest matching `p`, in document (pre-)order. -/
def findInForest : Nat → (Node → Bool) → List Node → Option Node
  | 0, _, _ => none
  | _ + 1, _, [] => none
  | fuel + 1, p, n :: rest =>
    if p n then some n
    else
      match findInForest fuel p (childrenOf n) with
      | some r => some r
      | none => findInForest fuel p rest

/-- `find_all`: every node of the forest matching `p`, in document order. -/
def findAllInForest : Nat → (Node → Bool) → List Node → List Node
  | 0, _, _ => []
  | _ + 1, _, [] => []
  | fuel + 1, p, n :: rest =>
    (if p n then [n] else []) ++ findAllInForest fuel p (childrenOf n)
      ++ findAllInForest fuel p rest

/-- `node.extract()` applied to the first match of `p`: the forest with that
node removed, plus a flag saying whether a removal happened. -/
def removeFirstInForest : Nat → (Node → Bool) → List Node → List Node × Bool
  | 0, _, ns => (ns, false)
  | _ + 1, _, [] => ([], false)
  | fuel + 1, p, n :: rest =>
    if p n then (rest, true)
    else
      match n with
      | Node.text s =>
        let r := removeFirstInForest fuel p rest
        (Node.text s :: r.1, r.2)
      | Node.elem t i c cs =>
        let inner := removeFirstInForest fuel p cs
        if inner.2 then (Node.elem t i c inner.1 :: rest, true)
        else
          let r := removeFirstInForest fuel p rest
          (Node.elem t i c cs :: r.1, r.2)

/-- The text fragments (NavigableStrings) of a forest, in document order. -/
def textFragments : Nat → List Node → List String
  | 0, _ => []
  | _ + 1, [] => []
  | fuel + 1, n :: rest =>
    (match n with
     | Node.text s => [s]
     | Node.elem _ _ _ cs => textFragments fuel cs) ++ textFragments fuel rest

/-- `get_text(strip=True)` over a forest: strip each fragment, drop the ones
that become empty, join with no separator. -/
def getTextStripForest (fuel : Nat) (ns : List Node) : String :=
  pyConcat (((textFragments fuel ns).map pyStrip).filter (fun s => s != ""))

/-- `get_text(strip=True)` of one node. -/
def getTextStripNode (fuel : Nat) (n : Node) : String :=
  match n with
  | Node.text s => pyStrip s
  | Node.elem _ _ _ cs => getTextStripForest fuel cs

/-- Plain `get_text()` of a forest (no stripping): concatenate fragments. -/
def getTextForest (fuel : Nat) (ns : List Node) : String :=
  pyConcat (textFragments fuel ns)

/-- The span-with-prompt extraction pattern used for all seven labeled fields:
find the span with the given class; if absent, the field stays `""`; if present
but without a nested `span.catalog-prompt`, the assignment guarded by
`if prompt:` never runs and the field also stays `""`; otherwise the prompt is
extracted (removed) and the remaining text of the span is taken. -/
def extractLabeledField (fuel : Nat) (doc : List Node) (cls : String) : String :=
  match findInForest fuel (hasTagClass "span" cls) doc with
  | none => ""
  | some el =>
    match findInForest fuel (hasTagClass "span" "catalog-prompt") (childrenOf el) with
    | none => ""
    | some _ =>
      getTextStripForest fuel
        (removeFirstInForest fuel (hasTagClass "span" "catalog-prompt") (childrenOf el)).1

/-- Match `(\d{4}-\d{4})\s+Catalog` anchored at the head of `l`; returns the
captured group (the `YYYY-YYYY` year span). -/
def matchCatalogYearAt (l : List Char) : Option String :=
  match l with
  | a :: b :: c :: d :: '-' :: e :: f :: g :: h :: rest =>
    if isDigitCh a ∧ isDigitCh b ∧ isDigitCh c ∧ isDigitCh d ∧
       isDigitCh e ∧ isDigitCh f ∧ isDigitCh g ∧ isDigitCh h then
      match rest.dropWhile isPySpace with
      | 'C' :: 'a' :: 't' :: 'a' :: 'l' :: 'o' :: 'g' :: _ =>
        if (rest.takeWhile isPySpace) ≠ [] then
          some (mkStr [a, b, c, d, '-', e, f, g, h])
        else none
      | _ => none
    else none
  | _ => none

/-- `re.search(r'(\d{4}-\d{4})\s+Catalog', text)`: first match anywhere. -/
def searchCatalogYear : List Char → Option String
  | [] => none
  | c :: cs =>
    match matchCatalogYearAt (c :: cs) with
    | some y => some y
    | none => searchCatalogYear cs

/-- `full_title.split(' - ', 1)[1]` when `' - '` occurs: the text after the
first occurrence of the separator; `none` when the separator is absent. -/
def afterFirstDash : List Char → Option (List Char)
  | [] => none
  | ' ' :: '-' :: ' ' :: rest => some rest
  | _ :: cs => afterFirstDash cs

/-! ## Course records and the per-semester fetch -/

/-- The course-info dictionary built by `get_course_info_for_semester`
(fixed shape; every key is always present in the source's dict). -/
structure CourseInfo where
  code : String
  title : String
  description : String
  catalog_year : String
  forbidden_overlaps : String
  distribution_requirements : String
  prerequisites : String
  permission_note : String
  when_offered : String
  satisfies_requirement : String
  last_terms_offered : String
  learning_outcomes : List String
  semester_found : String
deriving Repr, DecidableEq

/-- Outcome of one HTTP GET, abstracting the network: a status code with a
parsed HTML body, or a raised exception (timeout, connection error). -/
inductive NetResult where
  | resp : (status : Nat) → (doc : List Node) → NetResult
  | raise : NetResult

/-- The network oracle: department, course number and semester determine the
response (the URL is a fixed template over exactly these three values). -/
def Net := String → String → String → NetResult

/-- The field extraction of `get_course_info_for_semester` on a 200-status
page, lines 174-299 of `cornell_scraper.py`. -/
def extract_course_info (fuel : Nat) (dept number semester : String)
    (doc : List Node) : CourseInfo :=
  let catalog_year :=
    match findInForest fuel (hasTagClass "p" "catalog-note") doc with
    | none => ""
    | some note =>
      match searchCatalogYear (getTextStripNode fuel note).data with
      | some y => y
      | none => ""
  let title_elem :=
    match findInForest fuel isDtitleAnchor doc with
    | some el => some el
    | none =>
      match findInForest fuel (hasTagClass "div" "title-coursedescr") doc with
      | some div => findInForest fuel (hasTag "a") (childrenOf div)
      | none => none
  let title :=
    match title_elem with
    | none => ""
    | some el =>
      let full := getTextStripNode fuel el
      match afterFirstDash full.data with
      | some tail => mkStr tail
      | none => full
  let description :=
    match findInForest fuel (hasTagClass "p" "catalog-descr") doc with
    | none => ""
    | some el => getTextStripNode fuel el
  let outcomes :=
    (findAllInForest fuel (hasTagClass "li" "catalog-outcome") doc).map
      (getTextStripNode fuel)
  { code := pyCat dept (pyCat " " number)
    title := title
    description := description
    catalog_year := catalog_year
    forbidden_overlaps := extractLabeledField fuel doc "catalog-forbid"
    distribution_requirements := extractLabeledField fuel doc "catalog-attribute"
    prerequisites := extractLabeledField fuel doc "catalog-precoreq"
    permission_note := extractLabeledField fuel doc "catalog-permiss"
    when_offered := extractLabeledField fuel doc "catalog-when-offered"
    satisfies_requirement := extractLabeledField fuel doc "catalog-satisfies"
    last_terms_offered := extractLabeledField fuel doc "last-terms-offered"
    learning_outcomes := outcomes
    semester_found := semester }

/-- The distinct exits of `get_course_info_for_semester`, named after the
source's branches.  `exnCaught` is the `except` clause (which also absorbs a
`parse_course_code` ValueError); `notOffered` is the 404/410 branch (a debug
note, not an error); `httpError` prints an error diagnostic; `noContent` is a
200 page with neither title nor description.  All of them return `None` to the
caller; only `found` carries a record. -/
inductive FetchOutcome where
  | exnCaught : FetchOutcome
  | notOffered : FetchOutcome
  | httpError : Nat → FetchOutcome
  | noContent : FetchOutcome
  | found : CourseInfo → FetchOutcome

/-- The `Optional[Dict]` value the caller of the fetch actually sees. -/
def FetchOutcome.toOption : FetchOutcome → Option CourseInfo
  | FetchOutcome.found r => some r
  | _ => none

/-- `CornellCourseScraper.get_course_info_for_semester`. -/
def get_course_info_for_semester (fuel : Nat) (net : Net)
    (course_code semester : String) : FetchOutcome :=
  match parse_course_code course_code with
  | none => FetchOutcome.exnCaught
  | some (dept, number) =>
    match net dept number semester with
    | NetResult.raise => FetchOutcome.exnCaught
    | NetResult.resp status doc =>
      if status = 404 ∨ status = 410 then FetchOutcome.notOffered
      else if status ≠ 200 then FetchOutcome.httpError status
      else
        if (extract_course_info fuel dept number semester doc).title = ""
            ∧ (extract_course_info fuel dept number semester doc).description = "" then
          FetchOutcome.noContent
        else FetchOutcome.found (extract_course_info fuel dept number semester doc)

/-- The per-semester fetch as its caller sees it. -/
def fetchSem (fuel : Nat) (net : Net) (course_code semester : String) :
    Option CourseInfo :=
  (get_course_info_for_semester fuel net course_code semester).toOption

/-! ## Fallback search orchestrator (`get_course_info`) -/

/-- The fallback loop of `get_course_info`: first fetch that returns a record. -/
def first_hit (f : String → Option CourseInfo) : List String → Option CourseInfo
  | [] => none
  | t :: rest =>
    match f t with
    | some r => some r
    | none => first_hit f rest

/-- `CornellCourseScraper.get_course_info`.  The outer `Option` is an uncaught
exception escaping `get_fallback_semesters` (never reached for a well-formed
semester code); the inner `Option` is the function's `Optional[Dict]` result. -/
def get_course_info (fuel : Nat) (net : Net) (course_code semester : String)
    (use_fallback : Bool) (max_fallbacks : Nat) : Option (Option CourseInfo) :=
  match fetchSem fuel net course_code semester with
  | some r => some (some r)
  | none =>
    if use_fallback then
      match get_fallback_semesters semester max_fallbacks with
      | none => none
      | some fbs => some (first_hit (fetchSem fuel net course_code) fbs)
    else some none

/-- The semesters a first-hit search over `l` actually attempts, in order. -/
def search_trace (f : String → Option CourseInfo) : List String → List String
  | [] => []
  | t :: rest =>
    match f t with
    | some _ => [t]
    | none => t :: search_trace f rest

/-- The semesters `get_course_info` attempts, in the order it attempts them
(instrumentation of the orchestrator's control flow). -/
def get_course_info_attempts (fuel : Nat) (net : Net) (course_code semester : String)
    (use_fallback : Bool) (max_fallbacks : Nat) : List String :=
  match fetchSem fuel net course_code semester with
  | some _ => [semester]
  | none =>
    if use_fallback then
      match get_fallback_semesters semester max_fallbacks with
      | none => [semester]
      | some fbs => semester :: search_trace (fetchSem fuel net course_code) fbs
    else [semester]

/-- The contract of one fallback-enabled course lookup (claim C1): the fallback
list exists and has the requested length; no term appears twice among the
candidate terms; consecutive candidate terms descend exactly one semester at a
time (current semester first, then most recent first); the attempted terms are
an initial segment of the candidates, in order; a successful lookup stops at
its first hit, returns that hit's record with `semester_found` equal to the
term that hit, after misses on every earlier term; and an exhausted lookup
attempted every candidate term, missing on all of them.  The orchestrator
itself never raises. -/
def FallbackSearchSpec (fuel : Nat) (net : Net) (course sem : String) (N : Nat) :
    Prop :=
  ∃ fbs : List String,
    get_fallback_semesters sem N = some fbs ∧
    fbs.length = N ∧
    (sem :: fbs).Nodup ∧
    (∀ i (h : i + 1 < (sem :: fbs).length),
      get_previous_semester ((sem :: fbs).get ⟨i, Nat.lt_of_succ_lt h⟩) 1
        = some ((sem :: fbs).get ⟨i + 1, h⟩)) ∧
    get_course_info_attempts fuel net course sem true N
      = (sem :: fbs).take (get_course_info_attempts fuel net course sem true N).length ∧
    (∀ r, get_course_info fuel net course sem true N = some (some r) →
      ∃ miss, get_course_info_attempts fuel net course sem true N
          = miss ++ [r.semester_found] ∧
        fetchSem fuel net course r.semester_found = some r ∧
        ∀ u ∈ miss, fetchSem fuel net course u = none) ∧
    (get_course_info fuel net course sem true N = some none →
      get_course_info_attempts fuel net course sem true N = sem :: fbs ∧
      ∀ t ∈ sem :: fbs, fetchSem fuel net course t = none) ∧
    get_course_info fuel net course sem true N ≠ none

/-! ## Output formatter (`format_course_output`) -/

/-- The `output` list built line by line in `format_course_output`
(lines 370-422 of the source), before the final `'\n'.join`. -/
def format_course_output_lines (ci : CourseInfo) (include_semester_note : Bool) :
    List String :=
  [ci.code, ci.title]
  ++ (if include_semester_note then
        [pyCat "[Information from " (pyCat ci.semester_found " Class Roster]")]
      else [])
  ++ (if ci.catalog_year ≠ "" then
        [pyCat "Course information provided by the "
          (pyCat ci.catalog_year " Catalog.")]
      else ["Course information provided by the Catalog."])
  ++ [""]
  ++ (if ci.description ≠ "" then ["Course Description:", ci.description] else [])
  ++ (if ci.prerequisites ≠ "" then [pyCat "Prerequisites: " ci.prerequisites] else [])
  ++ (if ci.permission_note ≠ "" then
        [pyCat "Permission Note: " ci.permission_note] else [])
  ++ (if ci.forbidden_overlaps ≠ "" then
        [pyCat "Forbidden Overlaps: " ci.forbidden_overlaps] else [])
  ++ (if ci.distribution_requirements ≠ "" then
        [pyCat "Distribution Requirements: " ci.distribution_requirements] else [])
  ++ (if ci.when_offered ≠ "" then [pyCat "When Offered: " ci.when_offered] else [])
  ++ (if ci.satisfies_requirement ≠ "" then
        [pyCat "Satisfies Requirement: " ci.satisfies_requirement] else [])
  ++ (if ci.last_terms_offered ≠ "" then
        [pyCat "Last 4 Terms Offered: " ci.last_terms_offered] else [])
  ++ (if ci.learning_outcomes ≠ [] then
        "Learning Outcomes:" :: ci.learning_outcomes.map (fun o => pyCat "* " o)
      else [])

/-- `CornellCourseScraper.format_course_output` on a present record. -/
def format_course_output (ci : CourseInfo) (include_semester_note : Bool) : String :=
  pyJoin "\n" (format_course_output_lines ci include_semester_note)

/-- One optional labeled line: label, colon, space, value — omitted entirely
when the value is empty.  Used to state the formatter's contract. -/
def labeledLine (label value : String) : List String :=
  if value = "" then [] else [pyCat label (pyCat ": " value)]

/-- The always-present head of the formatted output (code, title, optional
semester note, catalog attribution, blank separator). -/
def formatHeader (ci : CourseInfo) (include_semester_note : Bool) : List String :=
  [ci.code, ci.title]
  ++ (if include_semester_note then
        [pyCat "[Information from " (pyCat ci.semester_found " Class Roster]")]
      else [])
  ++ (if ci.catalog_year ≠ "" then
        [pyCat "Course information provided by the "
          (pyCat ci.catalog_year " Catalog.")]
      else ["Course information provided by the Catalog."])
  ++ [""]

/-- The description block (label line plus text), omitted when empty. -/
def descriptionBlock (ci : CourseInfo) : List String :=
  if ci.description ≠ "" then ["Course Description:", ci.description] else []

/-- The learning-outcomes block, omitted when empty. -/
def outcomesBlock (ci : CourseInfo) : List String :=
  if ci.learning_outcomes ≠ [] then
    "Learning Outcomes:" :: ci.learning_outcomes.map (fun o => pyCat "* " o)
  else []

/-! ## Batch processor (`process_course_list`) -/

/-- The 80-equals-signs separator of the batch output file. -/
def eq80 : String := mkStr (List.replicate 80 '=')

/-- The input lines kept as course codes: each line stripped, blank (falsy)
lines skipped — `[line.strip() for line in f if line.strip()]`. -/
def courseLines (input_lines : List String) : List String :=
  (input_lines.map pyStrip).filter (fun s => s != "")

/-- The text a successful course appends to the output file. -/
def successBlock (ci : CourseInfo) : String :=
  pyCat (format_course_output ci true) (pyCat "\n\n" (pyCat eq80 "\n\n"))

/-- The text a failed course appends to the output file (lines 468-474 of the
source): code, `[Course not found]` marker, generic attribution, error line
naming `[self.semester] + get_fallback_semesters(self.semester, max_fallbacks)`
— computed from `max_fallbacks` whether or not fallback was enabled — then the
separator. -/
def failureBlock (course_code semester : String) (fbs : List String) : String :=
  pyCat course_code (pyCat "\n"
    (pyCat "[Course not found]\n"
      (pyCat "Course information provided by the Catalog.\n\n"
        (pyCat "Error: "
          (pyCat course_code
            (pyCat " has not been offered in: "
              (pyCat (pyJoin ", " (semester :: fbs))
                (pyCat "\n\n" (pyCat eq80 "\n\n")))))))))

/-- The per-course loop of `process_course_list`, accumulating the text
written to the output file.  `none` models an exception escaping the loop
(only possible for a malformed base semester code). -/
def processLoop (fuel : Nat) (net : Net) (semester : String) (use_fallback : Bool)
    (max_fallbacks : Nat) : List String → String → Option String
  | [], acc => some acc
  | course :: rest, acc =>
    match get_course_info fuel net course semester use_fallback max_fallbacks with
    | none => none
    | some (some ci) =>
      processLoop fuel net semester use_fallback max_fallbacks rest
        (pyCat acc (successBlock ci))
    | some none =>
      match get_fallback_semesters semester max_fallbacks with
      | none => none
      | some fbs =>
        processLoop fuel net semester use_fallback max_fallbacks rest
          (pyCat acc (failureBlock course semester fbs))

/-- `CornellCourseScraper.process_course_list`, as the content of the output
file it writes (console diagnostics are not modelled). -/
def process_course_list (fuel : Nat) (net : Net) (semester : String)
    (input_lines : List String) (use_fallback : Bool) (max_fallbacks : Nat) :
    Option String :=
  processLoop fuel net semester use_fallback max_fallbacks
    (courseLines input_lines) ""

/-- The amended claim-C7 contract of batch processing from a well-formed
semester: the output file is the concatenation of one block per course, a
failed course's block being the code line, the `[Course not found]` marker,
the generic attribution line, an error line naming the current semester plus
the `max_fallbacks` fallback semesters (computed whether or not fallback was
enabled), and the 80-equals separator; when fallback is enabled those named
semesters are exactly the ones the lookup attempted. -/
def BatchFailureSpec (fuel : Nat) (net : Net) (sem : String)
    (input_lines : List String) (use_fallback : Bool) (max_fallbacks : Nat) :
    Prop :=
  ∃ fbs out,
    get_fallback_semesters sem max_fallbacks = some fbs ∧
    process_course_list fuel net sem input_lines use_fallback max_fallbacks
      = some out ∧
    out = pyConcat ((courseLines input_lines).map (fun course =>
      match get_course_info fuel net course sem use_fallback max_fallbacks with
      | some (some ci) => successBlock ci
      | _ => failureBlock course sem fbs)) ∧
    (∀ course, failureBlock course sem fbs
      = pyCat course (pyCat "\n"
          (pyCat "[Course not found]\n"
            (pyCat "Course information provided by the Catalog.\n\n"
              (pyCat "Error: "
                (pyCat course
                  (pyCat " has not been offered in: "
                    (pyCat (pyJoin ", " (sem :: fbs))
                      (pyCat "\n\n" (pyCat eq80 "\n\n")))))))))) ∧
    (use_fallback = true → ∀ course,
      get_course_info fuel net course sem use_fallback max_fallbacks = some none →
      get_course_info_attempts fuel net course sem use_fallback max_fallbacks
        = sem :: fbs)

/-! ## Concrete fixtures for witnesses and counterexamples -/

/-- A minimal catalog page carrying a title and a description. -/
def pageDoc : List Node :=
  [Node.elem "div" none ["title-coursedescr"]
    [Node.elem "a" (some "dtitle-CS1110") []
      [Node.text "CS 1110 - Introduction to Computing"]],
   Node.elem "p" none ["catalog-descr"] [Node.text "Programming and problem solving."]]

/-- A network where no course exists in any semester (always 404). -/
def netAll404 : Net := fun _ _ _ => NetResult.resp 404 []

/-- A network where the course page exists only in semester `FA24`; the
primary term and the first fallback answer 404. -/
def netHitFA24 : Net := fun _ _ semester =>
  if semester == "FA24" then NetResult.resp 200 pageDoc else NetResult.resp 404 []

/-- A network answering 200 with a page that has no course content. -/
def netEmpty200 : Net := fun _ _ _ => NetResult.resp 200 []

/-- The labeled-span example of the spec: a `span.catalog-precoreq` whose
full text reads `"Prerequisites: CS 2110"`, the label sub-element's own text
being `"Prerequisites: "`. -/
def prereqSpanExample : Node :=
  Node.elem "span" none ["catalog-precoreq"]
    [Node.elem "span" none ["catalog-prompt"] [Node.text "Prerequisites: "],
     Node.text "CS 2110"]

/-- A document containing the labeled-span example. -/
def prereqDoc : List Node := [prereqSpanExample]

/-- A labeled span that carries no nested `span.catalog-prompt`. -/
def promptlessSpan : Node :=
  Node.elem "span" none ["catalog-precoreq"] [Node.text "CS 2110"]

/-- A document whose prerequisites span has no prompt sub-element. -/
def promptlessDoc : List Node := [promptlessSpan]

/-- A record with empty prerequisites and a non-empty When Offered field,
the formatter-omission example of the spec. -/
def sampleRecord : CourseInfo :=
  { code := "CS 1110"
    title := "Introduction to Computing"
    description := "Programming and problem solving."
    catalog_year := "2024-2025"
    forbidden_overlaps := ""
    distribution_requirements := ""
    prerequisites := ""
    permission_note := ""
    when_offered := "Fall, Spring."
    satisfies_requirement := ""
    last_terms_offered := "Fall 2025, Spring 2025"
    learning_outcomes := []
    semester_found := "FA25" }

/-! # Theorems

First the supporting lemmas (decimal round trip, semester-axis arithmetic,
search traces), then one theorem per specification claim. -/

/-- A digit character's value and digit-hood, for digits below 10. -/
theorem digitChar_facts (r : Nat) (h : r < 10) :
    digitVal (Nat.digitChar r) = r ∧ isDigitCh (Nat.digitChar r) = true := by
  interval_cases r <;> exact ⟨by decide, by decide⟩

/-- Every character `natDigitsBE` emits is an ASCII digit. -/
theorem natDigitsBE_digits (fuel : Nat) :
    ∀ n c, c ∈ natDigitsBE fuel n → isDigitCh c = true := by
  induction fuel with
  | zero => intro n c h; simp [natDigitsBE] at h
  | succ fuel ih =>
    intro n c h
    match n with
    | 0 => simp [natDigitsBE] at h
    | m + 1 =>
      simp only [natDigitsBE, List.mem_append, List.mem_singleton] at h
      rcases h with h | h
      · exact ih _ _ h
      · subst h; exact (digitChar_facts _ (Nat.mod_lt _ (by omega))).2

/-- Folding the decimal accumulator over the rendered digits recovers `n`. -/
theorem natDigitsBE_foldl (fuel : Nat) :
    ∀ n, n ≤ fuel →
      (natDigitsBE fuel n).foldl (fun a c => a * 10 + digitVal c) 0 = n := by
  induction fuel with
  | zero => intro n h; interval_cases n; simp [natDigitsBE]
  | succ fuel ih =>
    intro n h
    match n with
    | 0 => simp [natDigitsBE]
    | m + 1 =>
      have hq : (m + 1) / 10 ≤ fuel := by
        have := Nat.div_lt_self (Nat.succ_pos m) (by omega : 1 < 10)
        omega
      have hr : (m + 1) % 10 < 10 := Nat.mod_lt _ (by omega)
      simp only [natDigitsBE, List.foldl_append, List.foldl_cons, List.foldl_nil]
      rw [ih _ hq, (digitChar_facts _ hr).1]
      omega

/-- `natDigitsBE` is nonempty on positive input with sufficient fuel. -/
theorem natDigitsBE_ne_nil (fuel n : Nat) (h0 : 0 < n) (h : n ≤ fuel) :
    natDigitsBE fuel n ≠ [] := by
  match fuel, n with
  | 0, n => omega
  | fuel + 1, 0 => omega
  | fuel + 1, m + 1 => simp [natDigitsBE]

/-- On all-digit input the accumulator parser is the decimal fold. -/
theorem parseNatAcc_digits (l : List Char) :
    ∀ acc, (∀ c ∈ l, isDigitCh c = true) →
      parseNatAcc acc l = some (l.foldl (fun a c => a * 10 + digitVal c) acc) := by
  induction l with
  | nil => intro acc _; simp [parseNatAcc]
  | cons c cs ih =>
    intro acc h
    have hc : isDigitCh c = true := h c (List.mem_cons_self c cs)
    simp only [parseNatAcc, hc, if_pos, List.foldl_cons]
    exact ih _ (fun d hd => h d (List.mem_cons_of_mem _ hd))

/-- Parsing the decimal rendering of a natural number recovers it. -/
theorem parseNatAcc_natDecimal (n : Nat) :
    parseNatAcc 0 (natDecimal n).data = some n := by
  by_cases h0 : n = 0
  · subst h0; decide
  · have hpos : 0 < n := Nat.pos_of_ne_zero h0
    have hdata : (natDecimal n).data = natDigitsBE n n := by
      simp [natDecimal, h0, mkStr]
    rw [hdata, parseNatAcc_digits _ _ (fun c hc => natDigitsBE_digits n n c hc),
      natDigitsBE_foldl n n le_rfl]

/-- `natDecimal` is never the empty string. -/
theorem natDecimal_ne_nil (n : Nat) : (natDecimal n).data ≠ [] := by
  by_cases h0 : n = 0
  · subst h0; decide
  · have : (natDecimal n).data = natDigitsBE n n := by simp [natDecimal, h0, mkStr]
    rw [this]
    exact natDigitsBE_ne_nil n n (Nat.pos_of_ne_zero h0) le_rfl

/-- The head of a decimal rendering is a digit, hence not `-`. -/
theorem natDecimal_head_digit (n : Nat) :
    ∀ c ∈ (natDecimal n).data, isDigitCh c = true := by
  by_cases h0 : n = 0
  · subst h0; decide
  · have : (natDecimal n).data = natDigitsBE n n := by simp [natDecimal, h0, mkStr]
    rw [this]; exact natDigitsBE_digits n n

/-- Round trip: Python's `int` undoes Python's `f"{n:02d}"` for every integer,
including the negative results the step-back operation can produce. -/
theorem pyInt_pyFormat02d (n : Int) : pyInt (pyFormat02d n) = some n := by
  by_cases hneg : n < 0
  · have habs : 0 < n.natAbs := by omega
    have hdata : (pyFormat02d n).data = '-' :: (natDecimal n.natAbs).data := by
      simp [pyFormat02d, hneg, pyCat, mkStr]
    rcases hne : (natDecimal n.natAbs).data with _ | ⟨c, cs⟩
    · exact absurd hne (natDecimal_ne_nil _)
    · have hred : pyInt (pyFormat02d n) =
          (parseNatAcc 0 (c :: cs)).map (fun m : Nat => -(m : Int)) := by
        unfold pyInt
        rw [hdata, hne]
        simp [pyIntList]
      rw [hred, ← hne, parseNatAcc_natDecimal]
      simp only [Option.map_some']
      rw [Option.some_inj]
      omega
  · have hdata : (pyFormat02d n).data =
        List.replicate (2 - (natDecimal n.natAbs).data.length) '0'
          ++ (natDecimal n.natAbs).data := by
      simp [pyFormat02d, hneg, padTwo, mkStr]
    have hparse : parseNatAcc 0
        (List.replicate (2 - (natDecimal n.natAbs).data.length) '0'
          ++ (natDecimal n.natAbs).data) = some n.natAbs := by
      rcases hk : 2 - (natDecimal n.natAbs).data.length with _ | ⟨_ | k⟩
      · simpa using parseNatAcc_natDecimal n.natAbs
      · simpa [parseNatAcc, isDigitCh, digitVal] using parseNatAcc_natDecimal n.natAbs
      · exact absurd hk (by
          have := natDecimal_ne_nil n.natAbs
          have : 0 < (natDecimal n.natAbs).data.length := List.length_pos.mpr this
          omega)
    rcases hpad : (pyFormat02d n).data with _ | ⟨c, cs⟩
    · rw [hdata] at hpad
      rcases List.append_eq_nil.mp hpad with ⟨-, h2⟩
      exact absurd h2 (natDecimal_ne_nil _)
    · have hcdig : isDigitCh c = true := by
        have hmem : c ∈ (pyFormat02d n).data := by rw [hpad]; exact List.mem_cons_self _ _
        rw [hdata] at hmem
        rcases List.mem_append.mp hmem with hm | hm
        · rw [List.eq_of_mem_replicate hm]; decide
        · exact natDecimal_head_digit _ _ hm
      have hcne : ¬ (c = '-') := by
        intro h; subst h; simp [isDigitCh] at hcdig
      have hred : pyInt (pyFormat02d n) =
          (parseNatAcc 0 (c :: cs)).map (fun m : Nat => (m : Int)) := by
        unfold pyInt
        rw [hpad]
        simp [pyIntList, hcne]
      rw [hred, ← hpad, hdata, hparse]
      simp only [Option.map_some']
      rw [Option.some_inj]
      omega

/-- `pyFormat02d` renders distinct integers distinctly. -/
theorem pyFormat02d_inj {a b : Int} (h : pyFormat02d a = pyFormat02d b) : a = b := by
  have ha := pyInt_pyFormat02d a
  have hb := pyInt_pyFormat02d b
  rw [h, hb] at ha
  exact (Option.some_inj.mp ha).symm

/-- Character data of a term code. -/
theorem mkCode_data (b : Bool) (y : Int) :
    (mkCode b y).data = (if b then ['F', 'A'] else ['S', 'P']) ++ (pyFormat02d y).data := by
  cases b <;> rfl

/-- A Fall code starts with `FA`. -/
theorem mkCode_true_startsWith_FA (y : Int) :
    pyStartsWith (mkCode true y) "FA" = true := by
  have h := mkCode_data true y
  simp only [if_pos] at h
  simp [pyStartsWith, h, leadsWith]

/-- A Spring code does not start with `FA`. -/
theorem mkCode_false_not_FA (y : Int) :
    pyStartsWith (mkCode false y) "FA" = false := by
  have h := mkCode_data false y
  simp only [if_neg] at h
  simp [pyStartsWith, h, leadsWith]

/-- A Spring code starts with `SP`. -/
theorem mkCode_false_startsWith_SP (y : Int) :
    pyStartsWith (mkCode false y) "SP" = true := by
  have h := mkCode_data false y
  simp only [if_neg] at h
  simp [pyStartsWith, h, leadsWith]

/-- Slicing a term code after the prefix returns the year rendering. -/
theorem mkCode_drop_two (b : Bool) (y : Int) :
    pyDropStr (mkCode b y) 2 = pyFormat02d y := by
  cases b <;>
    · show mkStr ((mkCode _ y).data.drop 2) = pyFormat02d y
      rw [mkCode_data]
      simp [mkStr]

/-- Term codes are uniquely readable: equal codes have equal season and year. -/
theorem mkCode_inj {b c : Bool} {y z : Int} (h : mkCode b y = mkCode c z) :
    b = c ∧ y = z := by
  have hd : (mkCode b y).data = (mkCode c z).data := by rw [h]
  rw [mkCode_data, mkCode_data] at hd
  cases b <;> cases c <;> simp at hd
  · exact ⟨rfl, pyFormat02d_inj (String.ext hd)⟩
  · exact ⟨rfl, pyFormat02d_inj (String.ext hd)⟩

/-- One loop iteration on a Fall code: same year, Spring. -/
theorem prevLoop_fall (k : Nat) (y : Int) :
    prevLoop (k + 1) (mkCode true y) = prevLoop k (mkCode false y) := by
  show (if pyStartsWith (mkCode true y) "FA" then _ else _) = _
  rw [mkCode_true_startsWith_FA]
  simp only [if_pos]
  rw [mkCode_drop_two]
  rfl

/-- One loop iteration on a Spring code: previous year, Fall. -/
theorem prevLoop_spring (k : Nat) (y : Int) :
    prevLoop (k + 1) (mkCode false y) = prevLoop k (mkCode true (y - 1)) := by
  show (if pyStartsWith (mkCode false y) "FA" then _
        else if pyStartsWith (mkCode false y) "SP" then _ else _) = _
  rw [mkCode_false_not_FA, mkCode_false_startsWith_SP]
  simp only [Bool.false_eq_true, if_false, if_pos]
  rw [mkCode_drop_two, pyInt_pyFormat02d]
  rfl

/-- One loop iteration moves one position back along the semester axis. -/
theorem prevLoop_codeOfIdx_succ (k : Nat) (m : Int) :
    prevLoop (k + 1) (codeOfIdx m) = prevLoop k (codeOfIdx (m - 1)) := by
  rcases Int.emod_two_eq_zero_or_one m with hm | hm
  · have hb : (decide (m % 2 = 1)) = false := by simp [hm]
    have hprev : codeOfIdx (m - 1) = mkCode true (m / 2 - 1) := by
      have h1 : (m - 1) % 2 = 1 := by omega
      have h2 : (m - 1) / 2 = m / 2 - 1 := by omega
      simp [codeOfIdx, h1, h2]
    rw [codeOfIdx, hb, prevLoop_spring, hprev]
  · have hb : (decide (m % 2 = 1)) = true := by simp [hm]
    have hprev : codeOfIdx (m - 1) = mkCode false (m / 2) := by
      have h1 : (m - 1) % 2 = 0 := by omega
      have h2 : (m - 1) / 2 = m / 2 := by omega
      simp [codeOfIdx, h1, h2]
    rw [codeOfIdx, hb, prevLoop_fall, hprev]

/-- Stepping back `k` semesters moves `k` positions back along the axis. -/
theorem prevLoop_codeOfIdx (k : Nat) :
    ∀ m : Int, prevLoop k (codeOfIdx m) = some (codeOfIdx (m - k)) := by
  induction k with
  | zero => intro m; simp [prevLoop]
  | succ k ih =>
    intro m
    rw [prevLoop_codeOfIdx_succ, ih]
    have : m - 1 - k = m - (k + 1 : Nat) := by push_cast; ring
    rw [this]

/-- `get_previous_semester` on a well-formed code never raises and lands
`steps_back` positions earlier on the axis. -/
theorem get_previous_semester_codeOfIdx (m : Int) (k : Nat) :
    get_previous_semester (codeOfIdx m) k = some (codeOfIdx (m - k)) :=
  prevLoop_codeOfIdx k m

/-- Every well-formed code sits at its axis position. -/
theorem mkCode_eq_codeOfIdx (b : Bool) (y : Int) :
    mkCode b y = codeOfIdx (idxOf b y) := by
  cases b
  · have he : idxOf false y = 2 * y + 0 := rfl
    have h1 : ¬ (idxOf false y % 2 = 1) := by rw [he]; omega
    have h2 : idxOf false y / 2 = y := by rw [he]; omega
    simp [codeOfIdx, h1, h2]
  · have he : idxOf true y = 2 * y + 1 := rfl
    have h1 : idxOf true y % 2 = 1 := by rw [he]; omega
    have h2 : idxOf true y / 2 = y := by rw [he]; omega
    simp [codeOfIdx, h1, h2]

/-- Distinct axis positions carry distinct codes. -/
theorem codeOfIdx_inj : Function.Injective codeOfIdx := by
  intro a b h
  unfold codeOfIdx at h
  rcases mkCode_inj h with ⟨hb, hy⟩
  rcases Int.emod_two_eq_zero_or_one a with ha | ha <;>
    rcases Int.emod_two_eq_zero_or_one b with hb2 | hb2 <;>
      simp [ha, hb2] at hb ⊢ <;> omega

/-- `mapM` over `Option` succeeds pointwise. -/
theorem mapM_option_eq_map {α β : Type} (f : α → Option β) (g : α → β)
    (l : List α) (h : ∀ a ∈ l, f a = some (g a)) : l.mapM f = some (l.map g) := by
  induction l with
  | nil => rfl
  | cons a as ih =>
    rw [List.mapM_cons, h a (List.mem_cons_self a as),
      ih (fun x hx => h x (List.mem_cons_of_mem _ hx))]
    rfl

/-- The fallback enumeration of a well-formed code: positions
`m - 1, m - 2, ..., m - N`, most recent first. -/
theorem get_fallback_semesters_codeOfIdx (m : Int) (N : Nat) :
    get_fallback_semesters (codeOfIdx m) N
      = some ((List.range N).map (fun i : Nat => codeOfIdx (m - (i + 1)))) := by
  unfold get_fallback_semesters
  exact mapM_option_eq_map _ _ _ (fun i _ => by
    rw [get_previous_semester_codeOfIdx]
    norm_cast)

/-- The attempted semesters form an initial segment of the searched list. -/
theorem search_trace_take (f : String → Option CourseInfo) (l : List String) :
    search_trace f l = l.take (search_trace f l).length := by
  induction l with
  | nil => rfl
  | cons t rest ih =>
    cases hf : f t with
    | some r => simp [search_trace, hf]
    | none =>
      simp only [search_trace, hf, List.length_cons, List.take_succ_cons,
        List.cons.injEq, true_and]
      exact ih

/-- A successful first-hit search: the trace is the misses followed by the hit,
which carries exactly the returned record. -/
theorem first_hit_some (f : String → Option CourseInfo) (l : List String)
    (r : CourseInfo) (h : first_hit f l = some r) :
    ∃ miss t, search_trace f l = miss ++ [t] ∧ f t = some r ∧
      ∀ u ∈ miss, f u = none := by
  induction l with
  | nil => simp [first_hit] at h
  | cons t rest ih =>
    cases hf : f t with
    | some r0 =>
      have h0 : r0 = r := by
        have h' := h
        simp only [first_hit, hf] at h'
        exact Option.some_inj.mp h'
      refine ⟨[], t, by simp [search_trace, hf], ?_, by simp⟩
      rw [hf, h0]
    | none =>
      have h' : first_hit f rest = some r := by
        have h'' := h
        simp only [first_hit, hf] at h''
        exact h''
      rcases ih h' with ⟨miss, u, h1, h2, h3⟩
      refine ⟨t :: miss, u, by simp [search_trace, hf, h1], h2, ?_⟩
      intro w hw
      rcases List.mem_cons.mp hw with hw | hw
      · subst hw; exact hf
      · exact h3 w hw

/-- An exhausted first-hit search attempted every term and missed everywhere. -/
theorem first_hit_none (f : String → Option CourseInfo) (l : List String)
    (h : first_hit f l = none) :
    search_trace f l = l ∧ ∀ t ∈ l, f t = none := by
  induction l with
  | nil => exact ⟨rfl, by simp⟩
  | cons t rest ih =>
    cases hf : f t with
    | some r0 =>
      have h' := h
      simp only [first_hit, hf] at h'
      exact absurd h' (by simp)
    | none =>
      have h' : first_hit f rest = none := by
        have h'' := h
        simp only [first_hit, hf] at h''
        exact h''
      rcases ih h' with ⟨h1, h2⟩
      refine ⟨by simp [search_trace, hf, h1], ?_⟩
      intro u hu
      rcases List.mem_cons.mp hu with hu | hu
      · subst hu; exact hf
      · exact h2 u hu

/-- With fallback enabled and the fallback list available, the orchestrator is
a first-hit search over the current semester followed by the fallback list,
and its attempts are the corresponding trace. -/
theorem get_course_info_as_search (fuel : Nat) (net : Net) (course sem : String)
    (N : Nat) (fbs : List String)
    (hf : get_fallback_semesters sem N = some fbs) :
    get_course_info fuel net course sem true N
        = some (first_hit (fetchSem fuel net course) (sem :: fbs)) ∧
      get_course_info_attempts fuel net course sem true N
        = search_trace (fetchSem fuel net course) (sem :: fbs) := by
  constructor
  · unfold get_course_info
    cases hx : fetchSem fuel net course sem with
    | some r => simp [hx, first_hit]
    | none => simp [hx, hf, first_hit]
  · unfold get_course_info_attempts
    cases hx : fetchSem fuel net course sem with
    | some r => simp [hx, search_trace]
    | none => simp [hx, hf, search_trace]

/-- Any record the per-semester fetch returns carries the fetched semester in
its `semester_found` field. -/
theorem fetchSem_semester_found (fuel : Nat) (net : Net) (course sem : String)
    (r : CourseInfo) (h : fetchSem fuel net course sem = some r) :
    r.semester_found = sem := by
  unfold fetchSem get_course_info_for_semester at h
  split at h
  · simp [FetchOutcome.toOption] at h
  · split at h
    · simp [FetchOutcome.toOption] at h
    · split at h
      · simp [FetchOutcome.toOption] at h
      · split at h
        · simp [FetchOutcome.toOption] at h
        · split at h
          · simp [FetchOutcome.toOption] at h
          · simp only [FetchOutcome.toOption, Option.some_inj] at h
            subst h
            rfl

/-- C1: For every course lookup by the fallback search orchestrator
(`get_course_info` with fallback enabled and maximum `N`), starting from any
well-formed semester code `mkCode b y`: the terms are attempted in exactly the
order current-semester-first then the `N` fallback semesters most recent first
(consecutive candidate terms descend one semester at a time and the attempt
list is an initial segment of the candidates); the search stops at the first
term whose fetch succeeds and returns a record whose `semester_found` equals
that term's code; and no term is ever attempted twice within one lookup. -/
theorem fallback_search_order (fuel : Nat) (net : Net) (course : String)
    (b : Bool) (y : Int) (N : Nat) :
    FallbackSearchSpec fuel net course (mkCode b y) N := by
  rw [mkCode_eq_codeOfIdx]
  generalize idxOf b y = m
  have hfbs := get_fallback_semesters_codeOfIdx m N
  set fbs := (List.range N).map (fun i : Nat => codeOfIdx (m - (i + 1))) with hfbsdef
  have hsearch := get_course_info_as_search fuel net course (codeOfIdx m) N fbs hfbs
  have hget : ∀ j (hj : j < (codeOfIdx m :: fbs).length),
      (codeOfIdx m :: fbs).get ⟨j, hj⟩ = codeOfIdx (m - j) := by
    intro j hj
    match j with
    | 0 => simp
    | j + 1 =>
      simp only [List.get_eq_getElem, List.getElem_cons_succ, hfbsdef,
        List.getElem_map, List.getElem_range]
      norm_cast
  refine ⟨fbs, hfbs, by simp [hfbsdef], ?_, ?_, ?_, ?_, ?_, ?_⟩
  · -- no term twice
    rw [List.nodup_cons]
    constructor
    · intro hmem
      rw [hfbsdef, List.mem_map] at hmem
      rcases hmem with ⟨i, hi, hcode⟩
      have := codeOfIdx_inj hcode
      omega
    · rw [hfbsdef]
      refine List.Nodup.map ?_ (List.nodup_range N)
      intro a b hab
      have := codeOfIdx_inj hab
      omega
  · -- consecutive terms descend one semester
    intro i h
    rw [hget i (Nat.lt_of_succ_lt h), hget (i + 1) h,
      get_previous_semester_codeOfIdx]
    have harith : m - (i : Int) - 1 = m - ((i : Int) + 1) := by ring
    push_cast
    rw [harith]
  · -- attempts are an initial segment of the candidates
    rw [hsearch.2]
    exact search_trace_take _ _
  · -- first success wins and stamps its semester
    intro r hr
    rw [hsearch.1, Option.some_inj] at hr
    rcases first_hit_some _ _ _ hr with ⟨miss, t, h1, h2, h3⟩
    have hsf : r.semester_found = t := fetchSem_semester_found fuel net course t r h2
    refine ⟨miss, ?_, ?_, h3⟩
    · rw [hsearch.2, h1, hsf]
    · rw [hsf]; exact h2
  · -- exhaustion attempted everything and missed everywhere
    intro hr
    rw [hsearch.1, Option.some_inj] at hr
    rcases first_hit_none _ _ hr with ⟨h1, h2⟩
    exact ⟨by rw [hsearch.2, h1], h2⟩
  · rw [hsearch.1]
    simp

/-- C1 witness: the spec's own scenario.  For a network where `CS 1110` exists
only in `FA24`, a lookup based at `FA25` with three fallbacks attempts exactly
`FA25`, `SP25`, `FA24` (it never attempts `SP24`), and succeeds with a record
whose `semester_found` is `FA24`. -/
theorem fallback_search_order_witness :
    FallbackSearchSpec 100 netHitFA24 "CS 1110" (mkCode true 25) 3 ∧
    get_course_info_attempts 100 netHitFA24 "CS 1110" "FA25" true 3
      = ["FA25", "SP25", "FA24"] ∧
    (∃ r, get_course_info 100 netHitFA24 "CS 1110" "FA25" true 3 = some (some r) ∧
      r.semester_found = "FA24") :=
  ⟨fallback_search_order 100 netHitFA24 "CS 1110" true 25 3, by decide,
    ⟨extract_course_info 100 "CS" "1110" "FA24" pageDoc, by decide, by decide⟩⟩

/-- C2: For every date, semester inference falls into exactly one of three
branches — April 15 through October 14 gives FA of the current year, October 15
through December 31 gives SP of the next year, January 1 through April 14 gives
SP of the current year — and the boundary dates April 14/15, October 14/15,
January 1 and December 31 behave exactly as claimed.  No valid date is
unclassified and none matches two branches. -/
theorem semester_inference_partition (year : Int) (month day : Nat)
    (h : DateValid month day) : SemesterInferenceSpec year month day := by
  obtain ⟨h1, h2, h3, h4⟩ := h
  refine ⟨?_, ?_, ?_, ?_, ?_, ?_, ?_, ?_, ?_, ?_, ?_, ?_, ?_⟩
  · unfold InFallWindow InNextSpringWindow InSpringWindow; omega
  · unfold InFallWindow InNextSpringWindow; omega
  · unfold InFallWindow InSpringWindow; omega
  · unfold InNextSpringWindow InSpringWindow; omega
  · intro hw
    unfold InFallWindow at hw
    unfold get_current_semester
    rw [if_pos hw]
  · intro hw
    unfold InNextSpringWindow at hw
    unfold get_current_semester
    rw [if_neg (by omega), if_pos (by omega)]
  · intro hw
    unfold InSpringWindow at hw
    unfold get_current_semester
    rw [if_neg (by omega), if_neg (by omega)]
  · unfold get_current_semester; rw [if_neg (by omega), if_neg (by omega)]
  · unfold get_current_semester; rw [if_pos (by omega)]
  · unfold get_current_semester; rw [if_pos (by omega)]
  · unfold get_current_semester; rw [if_neg (by omega), if_pos (by omega)]
  · unfold get_current_semester; rw [if_neg (by omega), if_neg (by omega)]
  · unfold get_current_semester; rw [if_neg (by omega), if_pos (by omega)]

/-- C2 witness: the contract instantiated on April 15, 2025 (a valid date). -/
theorem semester_inference_partition_witness :
    DateValid 4 15 ∧ SemesterInferenceSpec 2025 4 15 :=
  ⟨by unfold DateValid; omega, semester_inference_partition 2025 4 15
    (by unfold DateValid; omega)⟩

/-- Matching a concatenation against its own first component succeeds. -/
theorem leadsWith_self_append (p t : List Char) : leadsWith p (p ++ t) = true := by
  induction p with
  | nil => rfl
  | cons c cs ih => simp [leadsWith, ih]

/-- Any string extending `p` starts with `p`. -/
theorem pyStartsWith_pyCat (p s : String) : pyStartsWith (pyCat p s) p = true := by
  show leadsWith p.data (p.data ++ s.data) = true
  exact leadsWith_self_append _ _

/-- Slicing after a two-character head recovers the appended tail. -/
theorem pyDropStr_pyCat_two (p s : String) (hp : p.data.length = 2) :
    pyDropStr (pyCat p s) 2 = s := by
  show mkStr ((p.data ++ s.data).drop 2) = s
  rw [List.drop_append_of_le_length (by omega),
    List.drop_eq_nil_of_le (by omega)]
  simp [mkStr]

/-- C3 counterexample: stepping back one semester from `SP00` yields the
string `FA-1` — Python's `f"FA{-1:02d}"` — not the claimed wrapped code
`FA99`. -/
theorem step_back_sp00_counterexample :
    get_previous_semester "SP00" 1 = some "FA-1" ∧ ("FA-1" : String) ≠ "FA99" :=
  ⟨by decide, by decide⟩

/-- C3 amended: a single step back maps `FA<YY>` to `SP<YY>` with the year
digits unchanged (for any suffix), maps `SP<YY>` with `1 ≤ YY ≤ 99` to FA of
the previous year zero-padded to two digits, returns any code not starting
with `FA` or `SP` unchanged — but maps `SP00` to the malformed code `FA-1`
(the year is decremented without any modulo-100 wrap). -/
theorem step_back_one_amended :
    (∀ s : String, get_previous_semester (pyCat "FA" s) 1 = some (pyCat "SP" s)) ∧
    (∀ y : Int, 1 ≤ y → y ≤ 99 →
      get_previous_semester (pyCat "SP" (pyFormat02d y)) 1
        = some (pyCat "FA" (pyFormat02d (y - 1)))) ∧
    get_previous_semester "SP00" 1 = some "FA-1" ∧
    (∀ s : String, pyStartsWith s "FA" = false → pyStartsWith s "SP" = false →
      get_previous_semester s 1 = some s) := by
  refine ⟨?_, ?_, by decide, ?_⟩
  · intro s
    show prevLoop 1 (pyCat "FA" s) = some (pyCat "SP" s)
    show (if pyStartsWith (pyCat "FA" s) "FA" then _ else _) = _
    rw [pyStartsWith_pyCat]
    simp only [if_pos]
    rw [pyDropStr_pyCat_two "FA" s (by decide)]
    rfl
  · intro y h1 h2
    have hstep := prevLoop_spring 0 y
    have hSP : mkCode false y = pyCat "SP" (pyFormat02d y) := rfl
    have hFA : mkCode true (y - 1) = pyCat "FA" (pyFormat02d (y - 1)) := rfl
    rw [hSP] at hstep
    rw [show get_previous_semester (pyCat "SP" (pyFormat02d y)) 1
        = prevLoop 1 (pyCat "SP" (pyFormat02d y)) from rfl, hstep, ← hFA]
    rfl
  · intro s hFA hSP
    show prevLoop 1 s = some s
    show (if pyStartsWith s "FA" then _
          else if pyStartsWith s "SP" then _ else _) = _
    rw [hFA, hSP]
    simp

/-- C3 witness: `FA25` steps back to `SP25`, `SP25` to `FA24`, and the
unrecognized code `XX25` is returned unchanged. -/
theorem step_back_one_amended_witness :
    get_previous_semester (pyCat "FA" "25") 1 = some (pyCat "SP" "25") ∧
    get_previous_semester (pyCat "SP" (pyFormat02d 25)) 1
      = some (pyCat "FA" (pyFormat02d 24)) ∧
    get_previous_semester "XX25" 1 = some "XX25" := by
  refine ⟨step_back_one_amended.1 "25", ?_,
    step_back_one_amended.2.2.2 "XX25" (by decide) (by decide)⟩
  have h := step_back_one_amended.2.1 25 (by norm_num) (by norm_num)
  norm_num at h
  exact h

/-- The first survivor of `dropWhile` fails the predicate. -/
theorem head?_dropWhile {α : Type} (p : α → Bool) (l : List α) :
    ∀ c, (l.dropWhile p).head? = some c → p c = false := by
  induction l with
  | nil => intro c h; simp at h
  | cons a as ih =>
    intro c h
    by_cases ha : p a
    · rw [List.dropWhile_cons_of_pos ha] at h
      exact ih c h
    · rw [List.dropWhile_cons_of_neg ha] at h
      simp at h
      subst h
      exact Bool.not_eq_true _ ▸ (by simpa using ha)

/-- `takeWhile`/`dropWhile` across a block that satisfies the predicate,
stopped by a remainder that does not. -/
theorem takeWhile_block {α : Type} (p : α → Bool) (L rest : List α)
    (hall : ∀ c ∈ L, p c = true)
    (hstop : ∀ c, rest.head? = some c → p c = false) :
    (L ++ rest).takeWhile p = L ∧ (L ++ rest).dropWhile p = rest := by
  induction L with
  | nil =>
    simp only [List.nil_append]
    cases rest with
    | nil => simp
    | cons r rs =>
      have hr : p r = false := hstop r (by simp)
      rw [List.takeWhile_cons_of_neg (by simp [hr]),
        List.dropWhile_cons_of_neg (by simp [hr])]
      exact ⟨rfl, rfl⟩
  | cons a as ih =>
    have ha : p a = true := hall a (List.mem_cons_self a as)
    rcases ih (fun c hc => hall c (List.mem_cons_of_mem _ hc)) with ⟨h1, h2⟩
    constructor
    · rw [List.cons_append, List.takeWhile_cons_of_pos ha, h1]
    · rw [List.cons_append, List.dropWhile_cons_of_pos ha, h2]

/-- A whitespace character is not a letter. -/
theorem pySpace_not_letter (c : Char) (h : isPySpace c = true) :
    isLetterCh c = false := by
  have hn : c.toNat = 32 ∨ c.toNat = 9 ∨ c.toNat = 10 ∨ c.toNat = 11
      ∨ c.toNat = 12 ∨ c.toNat = 13 := by
    simp only [isPySpace, Bool.or_eq_true, beq_iff_eq] at h
    rcases h with ((((h | h) | h) | h) | h) | h <;> subst h <;> decide
  simp [isLetterCh]
  omega

/-- A digit character is neither a letter nor whitespace. -/
theorem digit_not_letter_not_space (c : Char) (h : isDigitCh c = true) :
    isLetterCh c = false ∧ isPySpace c = false := by
  have hn : 48 ≤ c.toNat ∧ c.toNat ≤ 57 := by simpa [isDigitCh] using h
  constructor
  · simp [isLetterCh]; omega
  · have h1 : ¬ c = ' ' := fun he => by subst he; exact absurd hn (by decide)
    have h2 : ¬ c = '\t' := fun he => by subst he; exact absurd hn (by decide)
    have h3 : ¬ c = '\n' := fun he => by subst he; exact absurd hn (by decide)
    have h4 : ¬ c = '\x0b' := fun he => by subst he; exact absurd hn (by decide)
    have h5 : ¬ c = '\x0c' := fun he => by subst he; exact absurd hn (by decide)
    have h6 : ¬ c = '\r' := fun he => by subst he; exact absurd hn (by decide)
    simp [isPySpace, h1, h2, h3, h4, h5, h6]

/-- The anchored matcher succeeds with a given result exactly when the input
decomposes as letters, whitespace, maximal digits, remainder. -/
theorem matchDeptNum_iff (l : List Char) (dept num : String) :
    (matchDeptNum l).map (fun p : List Char × List Char =>
        (mkStr (p.1.map pyToUpper), mkStr p.2)) = some (dept, num)
      ↔ AnchoredParse l dept num := by
  constructor
  · intro h
    rw [Option.map_eq_some'] at h
    rcases h with ⟨⟨L0, D0⟩, hmatch, hval⟩
    unfold matchDeptNum at hmatch
    by_cases hcond : l.takeWhile isLetterCh ≠ []
        ∧ ((l.dropWhile isLetterCh).dropWhile isPySpace).takeWhile isDigitCh ≠ []
    · rw [if_pos hcond, Option.some_inj, Prod.mk.injEq] at hmatch
      rcases hmatch with ⟨hL0, hD0⟩
      subst hL0
      subst hD0
      injection hval with hv1 hv2
      refine ⟨l.takeWhile isLetterCh,
        (l.dropWhile isLetterCh).takeWhile isPySpace,
        ((l.dropWhile isLetterCh).dropWhile isPySpace).takeWhile isDigitCh,
        ((l.dropWhile isLetterCh).dropWhile isPySpace).dropWhile isDigitCh,
        ?_, hcond.1, ?_, ?_, hcond.2, ?_, ?_, hv1.symm, hv2.symm⟩
      · rw [List.append_assoc, List.append_assoc,
          List.takeWhile_append_dropWhile, List.takeWhile_append_dropWhile,
          List.takeWhile_append_dropWhile]
      · intro c hc; exact List.mem_takeWhile_imp hc
      · intro c hc; exact List.mem_takeWhile_imp hc
      · intro c hc; exact List.mem_takeWhile_imp hc
      · exact head?_dropWhile isDigitCh _
    · rw [if_neg hcond] at hmatch
      exact absurd hmatch (by simp)
  · intro h
    rcases h with ⟨L, W, D, R, heq, hLne, hLall, hWall, hDne, hDall, hRhead, hdept, hnum⟩
    have heq' : l = L ++ (W ++ (D ++ R)) := by
      rw [heq, List.append_assoc, List.append_assoc]
    have hstop1 : ∀ c, (W ++ (D ++ R)).head? = some c → isLetterCh c = false := by
      intro c hc
      cases W with
      | cons w ws =>
        simp only [List.cons_append, List.head?_cons, Option.some_inj] at hc
        rw [← hc]
        exact pySpace_not_letter w (hWall w (List.mem_cons_self _ _))
      | nil =>
        cases D with
        | nil => exact absurd rfl hDne
        | cons d ds =>
          simp only [List.nil_append, List.cons_append, List.head?_cons,
            Option.some_inj] at hc
          rw [← hc]
          exact (digit_not_letter_not_space d
            (hDall d (List.mem_cons_self _ _))).1
    have hblock1 := takeWhile_block isLetterCh L (W ++ (D ++ R)) hLall hstop1
    have hstop2 : ∀ c, (D ++ R).head? = some c → isPySpace c = false := by
      intro c hc
      cases D with
      | nil => exact absurd rfl hDne
      | cons d ds =>
        simp only [List.cons_append, List.head?_cons, Option.some_inj] at hc
        rw [← hc]
        exact (digit_not_letter_not_space d
          (hDall d (List.mem_cons_self _ _))).2
    have hblock2 := takeWhile_block isPySpace W (D ++ R) hWall hstop2
    have hblock3 := takeWhile_block isDigitCh D R hDall hRhead
    unfold matchDeptNum
    rw [heq', hblock1.1, hblock1.2, hblock2.2, hblock3.1]
    rw [if_pos ⟨hLne, hDne⟩]
    simp [hdept, hnum]

/-- C4 counterexample: the letters-then-digits pattern occurs in `"?CS 1110"`
(starting at its second character, as the spec's "anywhere" matcher finds),
yet `parse_course_code` fails, because `re.match` anchors at the start. -/
theorem parse_course_code_counterexample :
    parse_course_code "?CS 1110" = none ∧
    spec_match_anywhere (cleanCourseString "?CS 1110")
      = some (['C', 'S'], ['1', '1', '1', '0']) :=
  ⟨by decide, by decide⟩

/-- C4 amended: parsing trims the input, discards everything from the first
colon onward and re-trims, then succeeds exactly when the remaining string
*begins* with a run of letters followed by optional whitespace and a run of
digits (the match is anchored at the start, not found anywhere), returning the
uppercased letters and the maximal digit run; `"CS 1110"`, `"CS1110"` and
`"CS 1110: Intro to Computing"` all parse to `("CS", "1110")` and `"????"`
fails. -/
theorem parse_course_code_amended :
    (∀ s dept num, parse_course_code s = some (dept, num) ↔
      AnchoredParse (cleanCourseString s) dept num) ∧
    parse_course_code "CS 1110" = some ("CS", "1110") ∧
    parse_course_code "CS1110" = some ("CS", "1110") ∧
    parse_course_code "CS 1110: Intro to Computing" = some ("CS", "1110") ∧
    parse_course_code "????" = none :=
  ⟨fun s dept num => matchDeptNum_iff (cleanCourseString s) dept num,
    by decide, by decide, by decide, by decide⟩

/-- C4 witness: the characterization applied at `"CS 1110"` produces the
structural decomposition. -/
theorem parse_course_code_amended_witness :
    AnchoredParse (cleanCourseString "CS 1110") "CS" "1110" :=
  (parse_course_code_amended.1 "CS 1110" "CS" "1110").mp (by decide)

/-- C5: For a fetch whose course code parses and whose request yields a
response: HTTP 404 or 410 takes the dedicated not-offered branch — no record,
and not the error-printing branch — and a 200 response whose page yields
neither a non-empty title nor a non-empty description takes the no-content
branch, also returning no record despite the successful HTTP call. -/
theorem fetch_not_found_classification (fuel : Nat) (net : Net)
    (course sem dept number : String) (status : Nat) (doc : List Node)
    (hp : parse_course_code course = some (dept, number))
    (hn : net dept number sem = NetResult.resp status doc) :
    ((status = 404 ∨ status = 410) →
      get_course_info_for_semester fuel net course sem = FetchOutcome.notOffered ∧
      fetchSem fuel net course sem = none ∧
      ∀ c, get_course_info_for_semester fuel net course sem
        ≠ FetchOutcome.httpError c) ∧
    (status = 200 →
      (extract_course_info fuel dept number sem doc).title = "" →
      (extract_course_info fuel dept number sem doc).description = "" →
      get_course_info_for_semester fuel net course sem = FetchOutcome.noContent ∧
      fetchSem fuel net course sem = none) := by
  have hred : get_course_info_for_semester fuel net course sem
      = (if status = 404 ∨ status = 410 then FetchOutcome.notOffered
         else if status ≠ 200 then FetchOutcome.httpError status
         else if (extract_course_info fuel dept number sem doc).title = ""
             ∧ (extract_course_info fuel dept number sem doc).description = "" then
           FetchOutcome.noContent
         else FetchOutcome.found (extract_course_info fuel dept number sem doc)) := by
    unfold get_course_info_for_semester
    rw [hp]
    dsimp only
    rw [hn]
  constructor
  · intro h4
    refine ⟨by rw [hred, if_pos h4], ?_, ?_⟩
    · unfold fetchSem
      rw [hred, if_pos h4]
      rfl
    · intro c
      rw [hred, if_pos h4]
      intro hcontra
      exact FetchOutcome.noConfusion hcontra
  · intro h200 ht hd
    have hn4 : ¬ (status = 404 ∨ status = 410) := by omega
    have hn200 : ¬ (status ≠ 200) := by omega
    refine ⟨by rw [hred, if_neg hn4, if_neg hn200, if_pos ⟨ht, hd⟩], ?_⟩
    unfold fetchSem
    rw [hred, if_neg hn4, if_neg hn200, if_pos ⟨ht, hd⟩]
    rfl

/-- C5 witness: an always-404 network takes the not-offered branch and an
empty-page-with-200 network takes the no-content branch, both yielding no
record. -/
theorem fetch_not_found_classification_witness :
    get_course_info_for_semester 100 netAll404 "CS 1110" "FA25"
        = FetchOutcome.notOffered ∧
    fetchSem 100 netAll404 "CS 1110" "FA25" = none ∧
    get_course_info_for_semester 100 netEmpty200 "CS 1110" "FA25"
        = FetchOutcome.noContent ∧
    fetchSem 100 netEmpty200 "CS 1110" "FA25" = none := by
  have h1 := fetch_not_found_classification 100 netAll404 "CS 1110" "FA25"
    "CS" "1110" 404 [] (by decide) rfl
  have h2 := fetch_not_found_classification 100 netEmpty200 "CS 1110" "FA25"
    "CS" "1110" 200 [] (by decide) rfl
  rcases h1.1 (Or.inl rfl) with ⟨ha, hb, -⟩
  rcases h2.2 rfl (by decide) (by decide) with ⟨hc, hd⟩
  exact ⟨ha, hb, hc, hd⟩

/-- String concatenation is associative. -/
theorem pyCat_assoc (a b c : String) : pyCat (pyCat a b) c = pyCat a (pyCat b c) := by
  simp [pyCat, mkStr, List.append_assoc]

/-- `labeledLine` as the conditional the formatter writes. -/
theorem labeledLine_eq (lbl v : String) :
    labeledLine lbl v = if v ≠ "" then [pyCat (pyCat lbl ": ") v] else [] := by
  unfold labeledLine
  by_cases h : v = "" <;> simp [h, pyCat_assoc]

/-- C6: The formatter emits the optional labeled lines in exactly the fixed
order Prerequisites, Permission Note, Forbidden Overlaps, Distribution
Requirements, When Offered, Satisfies Requirement, Last 4 Terms Offered, each
prefixed with its label, a colon and a space, omitting a line entirely when
its field is empty; the record with empty prerequisites and non-empty
`when_offered` yields a `When Offered:` line and no `Prerequisites:` line, and
the last-terms label is literally `Last 4 Terms Offered` regardless of the
field's content. -/
theorem format_output_field_order :
    (∀ ci b, format_course_output_lines ci b
      = formatHeader ci b
        ++ descriptionBlock ci
        ++ labeledLine "Prerequisites" ci.prerequisites
        ++ labeledLine "Permission Note" ci.permission_note
        ++ labeledLine "Forbidden Overlaps" ci.forbidden_overlaps
        ++ labeledLine "Distribution Requirements" ci.distribution_requirements
        ++ labeledLine "When Offered" ci.when_offered
        ++ labeledLine "Satisfies Requirement" ci.satisfies_requirement
        ++ labeledLine "Last 4 Terms Offered" ci.last_terms_offered
        ++ outcomesBlock ci) ∧
    (∀ ci b, format_course_output ci b
      = pyJoin "\n" (format_course_output_lines ci b)) ∧
    (format_course_output_lines sampleRecord true).contains
      "When Offered: Fall, Spring." = true ∧
    (format_course_output_lines sampleRecord true).all
      (fun l => !(pyStartsWith l "Prerequisites:")) = true ∧
    (format_course_output_lines sampleRecord true).contains
      "Last 4 Terms Offered: Fall 2025, Spring 2025" = true := by
  refine ⟨?_, fun ci b => rfl, by decide, by decide, by decide⟩
  intro ci b
  have e1 : pyCat "Prerequisites" ": " = "Prerequisites: " := by decide
  have e2 : pyCat "Permission Note" ": " = "Permission Note: " := by decide
  have e3 : pyCat "Forbidden Overlaps" ": " = "Forbidden Overlaps: " := by decide
  have e4 : pyCat "Distribution Requirements" ": "
      = "Distribution Requirements: " := by decide
  have e5 : pyCat "When Offered" ": " = "When Offered: " := by decide
  have e6 : pyCat "Satisfies Requirement" ": " = "Satisfies Requirement: " := by decide
  have e7 : pyCat "Last 4 Terms Offered" ": " = "Last 4 Terms Offered: " := by decide
  simp only [format_course_output_lines, formatHeader, descriptionBlock,
    outcomesBlock, labeledLine_eq, e1, e2, e3, e4, e5, e6, e7,
    List.append_assoc]

/-- The empty string is a left identity for concatenation. -/
theorem pyCat_empty_left (x : String) : pyCat "" x = x := rfl

/-- The empty string is a right identity for concatenation. -/
theorem pyCat_empty_right (x : String) : pyCat x "" = x :=
  String.ext (by simp [pyCat, mkStr])

/-- With the fallback list available the orchestrator never raises. -/
theorem get_course_info_ne_none (fuel : Nat) (net : Net) (course sem : String)
    (uf : Bool) (N : Nat) (fbs : List String)
    (hfbs : get_fallback_semesters sem N = some fbs) :
    get_course_info fuel net course sem uf N ≠ none := by
  unfold get_course_info
  cases hx : fetchSem fuel net course sem with
  | some r => simp
  | none => cases uf <;> simp [hfbs]

/-- The batch loop writes one block per course. -/
theorem processLoop_join (fuel : Nat) (net : Net) (sem : String) (uf : Bool)
    (N : Nat) (fbs : List String)
    (hfbs : get_fallback_semesters sem N = some fbs) :
    ∀ (courses : List String) (acc : String),
      processLoop fuel net sem uf N courses acc
        = some (pyCat acc (pyConcat (courses.map (fun course =>
            match get_course_info fuel net course sem uf N with
            | some (some ci) => successBlock ci
            | _ => failureBlock course sem fbs)))) := by
  intro courses
  induction courses with
  | nil => intro acc; simp [processLoop, pyConcat, pyCat_empty_right]
  | cons course rest ih =>
    intro acc
    unfold processLoop
    cases hg : get_course_info fuel net course sem uf N with
    | none => exact absurd hg (get_course_info_ne_none fuel net course sem uf N fbs hfbs)
    | some res =>
      cases res with
      | some ci =>
        dsimp only
        rw [ih (pyCat acc (successBlock ci))]
        simp [pyConcat, hg, pyCat_assoc]
      | none =>
        rw [hfbs]
        dsimp only
        rw [ih (pyCat acc (failureBlock course sem fbs))]
        simp [pyConcat, hg, pyCat_assoc, failureBlock]

set_option maxRecDepth 10000 in
/-- C7 counterexample: with fallback disabled (`--no-fallback`) and the default
`max_fallbacks = 3`, a failed course's block carries an error line naming
`FA25, SP25, FA24, SP24`, although the lookup only ever attempted `FA25` —
the block does not list "every semester that was checked". -/
theorem batch_failure_block_counterexample :
    (∃ out, process_course_list 100 netAll404 "FA25" ["CS 1110"] false 3
        = some out ∧
      (pyLines out).contains
        "Error: CS 1110 has not been offered in: FA25, SP25, FA24, SP24" = true) ∧
    get_course_info_attempts 100 netAll404 "CS 1110" "FA25" false 3 = ["FA25"] ∧
    "SP25" ∉ get_course_info_attempts 100 netAll404 "CS 1110" "FA25" false 3 :=
  ⟨⟨failureBlock "CS 1110" "FA25" ["SP25", "FA24", "SP24"],
    by decide, by decide⟩, by decide, by decide⟩

/-- C7 amended: for every configuration and well-formed base semester, batch
output is one block per course; a failed course's block contains the course
code, the `[Course not found]` marker, the generic attribution line, an error
line listing the current semester plus the `max_fallbacks` fallback semesters
(these are computed from `max_fallbacks` regardless of whether fallback was
enabled), and the 80-equals separator; when fallback is enabled the listed
semesters are exactly the ones checked. -/
theorem batch_failure_block_amended (fuel : Nat) (net : Net) (b : Bool) (y : Int)
    (input_lines : List String) (uf : Bool) (N : Nat) :
    BatchFailureSpec fuel net (mkCode b y) input_lines uf N := by
  rw [mkCode_eq_codeOfIdx]
  generalize idxOf b y = m
  have hfbs := get_fallback_semesters_codeOfIdx m N
  set fbs := (List.range N).map (fun i : Nat => codeOfIdx (m - (i + 1))) with hfbsdef
  refine ⟨fbs, _, hfbs, ?_, rfl, fun course => rfl, ?_⟩
  · unfold process_course_list
    rw [processLoop_join fuel net (codeOfIdx m) uf N fbs hfbs, pyCat_empty_left]
  · intro hu course hg
    subst hu
    have hsearch := get_course_info_as_search fuel net course (codeOfIdx m) N fbs hfbs
    rw [hsearch.1, Option.some_inj] at hg
    rw [hsearch.2, (first_hit_none _ _ hg).1]

/-- C7 witness: the amended contract instantiated on a no-fallback batch over
an always-404 network. -/
theorem batch_failure_block_amended_witness :
    BatchFailureSpec 100 netAll404 (mkCode true 25) ["CS 1110"] false 3 :=
  batch_failure_block_amended 100 netAll404 true 25 ["CS 1110"] false 3

/-- Characters with equal code points are equal. -/
theorem char_eq_of_toNat_eq {a b : Char} (h : a.toNat = b.toNat) : a = b := by
  have h2 : a.val = b.val := by
    apply UInt32.ext
    simpa [UInt32.toNat] using h
  exact Char.eq_of_val_eq h2

/-- Lexicographic `<` on character lists is asymmetric. -/
theorem lexLt_asymm : ∀ l1 l2, lexLt l1 l2 = true → lexLt l2 l1 = false := by
  intro l1
  induction l1 with
  | nil => intro l2 h; cases l2 <;> simp [lexLt] at h ⊢
  | cons a as ih =>
    intro l2 h
    cases l2 with
    | nil => simp [lexLt] at h
    | cons b bs =>
      unfold lexLt at h ⊢
      by_cases hab : a.toNat < b.toNat
      · rw [if_neg (by omega), if_pos hab]
      · rw [if_neg hab] at h
        by_cases hba : b.toNat < a.toNat
        · rw [if_pos hba] at h; exact absurd h (by simp)
        · rw [if_neg hba] at h
          rw [if_neg (by omega), if_neg (by omega)]
          exact ih bs h

/-- Lexicographic `<` on character lists is transitive. -/
theorem lexLt_trans : ∀ l1 l2 l3, lexLt l1 l2 = true → lexLt l2 l3 = true →
    lexLt l1 l3 = true := by
  intro l1
  induction l1 with
  | nil =>
    intro l2 l3 h12 h23
    cases l2 with
    | nil => simp [lexLt] at h12
    | cons b bs =>
      cases l3 with
      | nil => simp [lexLt] at h23
      | cons c cs => simp [lexLt]
  | cons a as ih =>
    intro l2 l3 h12 h23
    cases l2 with
    | nil => simp [lexLt] at h12
    | cons b bs =>
      cases l3 with
      | nil => simp [lexLt] at h23
      | cons c cs =>
        unfold lexLt at h12 h23 ⊢
        by_cases hab : a.toNat < b.toNat <;> by_cases hbc : b.toNat < c.toNat
        · rw [if_pos (by omega)]
        · rw [if_neg hbc] at h23
          by_cases hcb : c.toNat < b.toNat
          · rw [if_pos hcb] at h23; exact absurd h23 (by simp)
          · have hbceq : b.toNat = c.toNat := by omega
            rw [if_pos (by omega)]
        · rw [if_neg hab] at h12
          by_cases hba : b.toNat < a.toNat
          · rw [if_pos hba] at h12; exact absurd h12 (by simp)
          · have habeq : a.toNat = b.toNat := by omega
            rw [if_pos (by omega)]
        · rw [if_neg hab] at h12
          by_cases hba : b.toNat < a.toNat
          · rw [if_pos hba] at h12; exact absurd h12 (by simp)
          · rw [if_neg hba] at h12
            rw [if_neg hbc] at h23
            by_cases hcb : c.toNat < b.toNat
            · rw [if_pos hcb] at h23; exact absurd h23 (by simp)
            · rw [if_neg hcb] at h23
              rw [if_neg (by omega), if_neg (by omega)]
              exact ih bs cs h12 h23

/-- Lexicographic incomparability is equality. -/
theorem lexLt_eq_of_not_lt : ∀ l1 l2, lexLt l1 l2 = false → lexLt l2 l1 = false →
    l1 = l2 := by
  intro l1
  induction l1 with
  | nil =>
    intro l2 h12 h21
    cases l2 with
    | nil => rfl
    | cons b bs => simp [lexLt] at h12
  | cons a as ih =>
    intro l2 h12 h21
    cases l2 with
    | nil => simp [lexLt] at h21
    | cons b bs =>
      unfold lexLt at h12 h21
      by_cases hab : a.toNat < b.toNat
      · rw [if_pos hab] at h12; exact absurd h12 (by simp)
      · rw [if_neg hab] at h12
        by_cases hba : b.toNat < a.toNat
        · rw [if_pos hba] at h21
          exact absurd h21 (by simp)
        · rw [if_neg hba] at h12
          rw [if_neg hba, if_neg hab] at h21
          have hchar : a = b := char_eq_of_toNat_eq (by omega)
          rw [hchar, ih bs h12 h21]

instance : IsTotal String PyLe := by
  constructor
  intro a b
  unfold PyLe pyStrLe
  by_cases h : lexLt b.data a.data = true
  · right
    rw [lexLt_asymm _ _ h]
    rfl
  · left
    simp only [Bool.not_eq_true] at h
    rw [h]
    rfl

instance : IsTrans String PyLe := by
  constructor
  intro a b c hab hbc
  unfold PyLe pyStrLe at hab hbc ⊢
  simp only [Bool.not_eq_true'] at hab hbc ⊢
  by_cases hca : lexLt c.data a.data = true
  · by_cases hba : lexLt b.data a.data = true
    · rw [hba] at hab; exact absurd hab (by simp)
    · by_cases hab2 : lexLt a.data b.data = true
      · have := lexLt_trans _ _ _ hca hab2
        rw [this] at hbc
        exact absurd hbc (by simp)
      · have heq : a.data = b.data := lexLt_eq_of_not_lt _ _
          (by simpa using hab2) (by simpa using hba)
        rw [← heq] at hbc
        rw [hca] at hbc
        exact absurd hbc (by simp)
  · simpa using hca

/-- C8: For every input text, the extractor's result is exactly the set of
non-overlapping `[A-Z]+ \d{4}` matches — one-or-more uppercase letters, one
literal space, exactly four digits — deduplicated and sorted ascending in the
lexicographic (code point) string order, written one per line; the lowercase
occurrence `info 3450` is excluded, a code occurring twice yields one entry,
and `CS 4740` with `AB 1000` yields the sorted list `[AB 1000, CS 4740]`. -/
theorem extract_unique_courses_spec :
    (∀ content : String,
      List.Sorted PyLe (unique_courses content) ∧
      (unique_courses content).Nodup ∧
      (∀ x, x ∈ unique_courses content ↔ x ∈ foundCourses content) ∧
      unique_courses_output content
        = pyConcat ((unique_courses content).map (fun c => pyCat c "\n"))) ∧
    unique_courses "xx CS 4740 yy info 3450 zz CS 4740 ww" = ["CS 4740"] ∧
    "info 3450" ∉ foundCourses "xx CS 4740 yy info 3450 zz CS 4740 ww" ∧
    unique_courses "CS 4740 and AB 1000" = ["AB 1000", "CS 4740"] ∧
    unique_courses_output "CS 4740 and AB 1000" = "AB 1000\nCS 4740\n" := by
  refine ⟨?_, by decide, by decide, by decide, by decide⟩
  intro content
  unfold unique_courses
  refine ⟨List.sorted_insertionSort PyLe _, ?_, ?_, rfl⟩
  · rw [(List.perm_insertionSort PyLe _).nodup_iff]
    exact List.nodup_dedup _
  · intro x
    rw [(List.perm_insertionSort PyLe _).mem_iff, List.mem_dedup]

/-- C9: When the labeled span found for a field carries a leading prompt
sub-element, the extracted value is the remaining text of the containing
element with the prompt removed — whatever text the prompt itself carries is
excluded from the value. -/
theorem prompt_text_excluded (fuel : Nat) (doc : List Node) (cls : String)
    (nid pid : Option String) (clss pclss : List String)
    (promptChildren rest : List Node)
    (hpc : pclss.contains "catalog-prompt" = true)
    (hfind : findInForest (fuel + 1) (hasTagClass "span" cls) doc
      = some (Node.elem "span" nid clss
          (Node.elem "span" pid pclss promptChildren :: rest))) :
    extractLabeledField (fuel + 1) doc cls
      = getTextStripForest (fuel + 1) rest := by
  have hp : hasTagClass "span" "catalog-prompt"
      (Node.elem "span" pid pclss promptChildren) = true := by
    simp only [hasTagClass, Bool.and_eq_true, beq_self_eq_true, true_and]
    exact hpc
  unfold extractLabeledField
  rw [hfind]
  dsimp only [childrenOf]
  rw [show findInForest (fuel + 1) (hasTagClass "span" "catalog-prompt")
      (Node.elem "span" pid pclss promptChildren :: rest)
      = some (Node.elem "span" pid pclss promptChildren) from by
    unfold findInForest
    rw [if_pos hp]]
  rw [show removeFirstInForest (fuel + 1) (hasTagClass "span" "catalog-prompt")
      (Node.elem "span" pid pclss promptChildren :: rest) = (rest, true) from by
    unfold removeFirstInForest
    rw [if_pos hp]]

/-- C9 witness: the spec's example.  A `span.catalog-precoreq` whose full text
is `"Prerequisites: CS 2110"` and whose prompt sub-element's own text is
`"Prerequisites: "` extracts to exactly `"CS 2110"`. -/
theorem prompt_text_excluded_witness :
    extractLabeledField 5 prereqDoc "catalog-precoreq" = "CS 2110" ∧
    getTextForest 5 (childrenOf prereqSpanExample) = "Prerequisites: CS 2110" ∧
    getTextForest 5 [Node.text "Prerequisites: "] = "Prerequisites: " :=
  ⟨(prompt_text_excluded 4 prereqDoc "catalog-precoreq" none none
      ["catalog-precoreq"] ["catalog-prompt"] [Node.text "Prerequisites: "]
      [Node.text "CS 2110"] (by decide) rfl).trans (by decide),
    by decide, by decide⟩

/-- C10: For each of the seven labeled span fields, if the labeled span is
present but has no nested `span.catalog-prompt`, the extracted value is the
empty string — the span's text is never taken without the prompt-removal step
— exactly as when the element is absent; and the record's seven fields are
precisely these extractions. -/
theorem promptless_span_yields_empty (fuel : Nat) (doc : List Node)
    (dept number sem : String) :
    (∀ cls el, findInForest fuel (hasTagClass "span" cls) doc = some el →
      findInForest fuel (hasTagClass "span" "catalog-prompt") (childrenOf el)
        = none →
      extractLabeledField fuel doc cls = "") ∧
    (∀ cls, findInForest fuel (hasTagClass "span" cls) doc = none →
      extractLabeledField fuel doc cls = "") ∧
    (extract_course_info fuel dept number sem doc).forbidden_overlaps
      = extractLabeledField fuel doc "catalog-forbid" ∧
    (extract_course_info fuel dept number sem doc).distribution_requirements
      = extractLabeledField fuel doc "catalog-attribute" ∧
    (extract_course_info fuel dept number sem doc).prerequisites
      = extractLabeledField fuel doc "catalog-precoreq" ∧
    (extract_course_info fuel dept number sem doc).permission_note
      = extractLabeledField fuel doc "catalog-permiss" ∧
    (extract_course_info fuel dept number sem doc).when_offered
      = extractLabeledField fuel doc "catalog-when-offered" ∧
    (extract_course_info fuel dept number sem doc).satisfies_requirement
      = extractLabeledField fuel doc "catalog-satisfies" ∧
    (extract_course_info fuel dept number sem doc).last_terms_offered
      = extractLabeledField fuel doc "last-terms-offered" := by
  refine ⟨?_, ?_, rfl, rfl, rfl, rfl, rfl, rfl, rfl⟩
  · intro cls el h1 h2
    unfold extractLabeledField
    rw [h1]
    dsimp only
    rw [h2]
  · intro cls h1
    unfold extractLabeledField
    rw [h1]

/-- C10 witness: a prerequisites span with no prompt sub-element leaves the
field empty, indistinguishable from an absent element. -/
theorem promptless_span_yields_empty_witness :
    extractLabeledField 5 promptlessDoc "catalog-precoreq" = "" ∧
    (extract_course_info 5 "CS" "1110" "FA25" promptlessDoc).prerequisites
      = "" ∧
    (extract_course_info 5 "CS" "1110" "FA25" []).prerequisites = "" :=
  ⟨(promptless_span_yields_empty 5 promptlessDoc "CS" "1110" "FA25").1
      "catalog-precoreq" promptlessSpan rfl rfl,
    by decide, by decide⟩
